import Mathlib

/-!
Verification of `build_extra/rust/get_rust_ldflags.py`.

The script has two roles: a Capture role that writes its argument list to a
file, and an Orchestrator role that spawns `rustc`, reads the captured linker
arguments back from a temporary file, filters them, and prints the result.
The heart of the program is the pure flag filter in `main` (the left-to-right
scan over `args` building `ldflags`); we embed it below together with the
argsfile parsing and the try/finally cleanup structure of the Orchestrator.

Strings are modelled as Lean `String`s; Python's `str.endswith`,
`str.startswith` and `str.upper` are embedded character-wise over `String.data`
(for the ASCII constants used by the script this agrees with Python).
-/

namespace GetRustLdflags

/-- Python `s.endswith(suffix)`: `suffix` is a suffix of `s`, character-wise. -/
def pyEndsWith (s suffix : String) : Bool :=
  suffix.data.isSuffixOf s.data

/-- Python `s.startswith(pre)`: `pre` is a prefix of `s`, character-wise. -/
def pyStartsWith (s pre : String) : Bool :=
  pre.data.isPrefixOf s.data

/-- Python `s.upper()`, character-wise (the constants involved are ASCII). -/
def pyUpper (s : String) : String :=
  ⟨s.data.map Char.toUpper⟩

/-- What the `if`/`elif` chain in `main` decides for one argument when the
`next_arg_is_flag_value` bit is clear.  `pass` branches (which fall through to
`ldflags += [arg]`) are `keep`; the `-l`/`-L` branch additionally sets the
lookahead bit (`flagWithValue`); the final `else: continue` is `drop`. -/
inductive Action where
  | keep
  | flagWithValue
  | drop
deriving DecidableEq

/-- The branch conditions of the `if`/`elif` chain in `main`, in source order:
`.rlib` suffix, `.crate.allocator.rcgu.o` suffix, `.lib`-but-not-`msvcrt*`,
`-l`/`-L`, archive group markers, and the case-insensitive `/LIBPATH:`
check (`arg.upper().startswith("/LIBPATH:")`). -/
def classify (arg : String) : Action :=
  if pyEndsWith arg ".rlib" then .keep
  else if pyEndsWith arg ".crate.allocator.rcgu.o" then .keep
  else if pyEndsWith arg ".lib" && !(pyStartsWith arg "msvcrt") then .keep
  else if arg == "-l" || arg == "-L" then .flagWithValue
  else if arg == "-Wl,--start-group" || arg == "-Wl,--end-group" then .keep
  else if pyStartsWith (pyUpper arg) "/LIBPATH:" then .keep
  else .drop

/-- The flag filter loop of `main`: the Boolean argument is
`next_arg_is_flag_value`.  A value position is always appended; otherwise the
argument is processed per `classify`, and `-l`/`-L` set the bit for the next
iteration. -/
def filterLdflags : Bool → List String → List String
  | _, [] => []
  | true, arg :: rest => arg :: filterLdflags false rest
  | false, arg :: rest =>
    match classify arg with
    | .keep => arg :: filterLdflags false rest
    | .flagWithValue => arg :: filterLdflags true rest
    | .drop => filterLdflags false rest

/-- The value of `next_arg_is_flag_value` after the loop has processed a list,
starting from a given value of the bit. -/
def flagStateAfter : Bool → List String → Bool
  | b, [] => b
  | true, _ :: rest => flagStateAfter false rest
  | false, arg :: rest =>
    match classify arg with
    | .flagWithValue => flagStateAfter true rest
    | _ => flagStateAfter false rest

/-- `argsfile_content.split("\n")`: Python `str.split` with an explicit
separator; on the empty string it yields `[""]`. -/
def parseArgsfile (content : String) : List String :=
  (content.data.splitOn '\n').map fun cs => String.mk cs

/-- `"\n".join(ldflags)` written to stdout by `main`. -/
def ldflagsOutput (args : List String) : String :=
  String.intercalate "\n" (filterLdflags false args)

/-- Observable state of the Orchestrator's temporary argsfile. -/
structure TempFileState where
  tempFileExists : Bool
  fdOpen : Bool
deriving DecidableEq

/-- The three ways the `try` block of `main` can go: `rustc` succeeds and the
argsfile is read back (with the given content), `subprocess.check_call` raises
because rustc exited nonzero, or reading the argsfile (`os.fstat`/`os.read`)
raises. -/
inductive OrchOutcome where
  | success (argsfileContent : String)
  | subprocessNonzeroExit
  | readError
deriving DecidableEq

/-- Exceptions that can escape the `try` block. -/
inductive OrchError where
  | calledProcessError
  | osError
deriving DecidableEq

/-- `tempfile.mkstemp()`: after it, the temp file exists and its fd is open. -/
def mkstempState : TempFileState :=
  { tempFileExists := true, fdOpen := true }

/-- The body of the `try` block: either the captured content is read and split
into the raw argument list, or an exception value is produced.  The temp file
state is unchanged by the body. -/
def orchTryBlock : OrchOutcome → Except OrchError (List String)
  | .success content => .ok (parseArgsfile content)
  | .subprocessNonzeroExit => .error .calledProcessError
  | .readError => .error .osError

/-- The `finally` block: `os.close(argsfile_fd); os.unlink(argsfile_path)`. -/
def cleanupTemp (s : TempFileState) : TempFileState :=
  { s with fdOpen := false, tempFileExists := false }

/-- The Orchestrator path of `main` after the role dispatch: create the temp
file, run the `try` block, unconditionally run the `finally` cleanup, then
either propagate the exception or filter the arguments and produce the stdout
text.  Python's `try`/`finally` runs the cleanup on every exit path, which is
exactly how the result is assembled here. -/
def orchestrate (o : OrchOutcome) : Except OrchError String × TempFileState :=
  let s1 := mkstempState
  let tryResult := orchTryBlock o
  let s2 := cleanupTemp s1
  match tryResult with
  | .error e => (.error e, s2)
  | .ok args => (.ok (ldflagsOutput args), s2)

/-! ### Unfolding equations for the filter loop -/

/-- The loop produces nothing from an empty argument list. -/
theorem filterLdflags_nil (b : Bool) : filterLdflags b [] = [] := by
  cases b <;> rfl

/-- A value position (`next_arg_is_flag_value` set) is always appended and the
bit is cleared. -/
theorem filterLdflags_cons_true (arg : String) (rest : List String) :
    filterLdflags true (arg :: rest) = arg :: filterLdflags false rest := rfl

/-- A `pass` branch appends the argument and leaves the bit clear. -/
theorem filterLdflags_cons_keep {arg : String} (rest : List String)
    (h : classify arg = .keep) :
    filterLdflags false (arg :: rest) = arg :: filterLdflags false rest := by
  simp [filterLdflags, h]

/-- The `-l`/`-L` branch appends the argument and sets the bit. -/
theorem filterLdflags_cons_flag {arg : String} (rest : List String)
    (h : classify arg = .flagWithValue) :
    filterLdflags false (arg :: rest) = arg :: filterLdflags true rest := by
  simp [filterLdflags, h]

/-- The `else: continue` branch skips the argument. -/
theorem filterLdflags_cons_drop {arg : String} (rest : List String)
    (h : classify arg = .drop) :
    filterLdflags false (arg :: rest) = filterLdflags false rest := by
  simp [filterLdflags, h]

/-- On an empty list the lookahead bit is unchanged. -/
theorem flagStateAfter_nil (b : Bool) : flagStateAfter b [] = b := by
  cases b <;> rfl

/-! ### Structural lemmas -/

/-- The output of the loop is a sublist of its input: the loop only ever
appends the current argument or skips it. -/
theorem filterLdflags_sublist (b : Bool) (xs : List String) :
    (filterLdflags b xs).Sublist xs := by
  induction xs generalizing b with
  | nil => rw [filterLdflags_nil]
  | cons arg rest ih =>
    cases b with
    | true => exact List.Sublist.cons₂ arg (ih false)
    | false =>
      cases h : classify arg with
      | keep => rw [filterLdflags_cons_keep rest h]; exact List.Sublist.cons₂ arg (ih false)
      | flagWithValue => rw [filterLdflags_cons_flag rest h]; exact List.Sublist.cons₂ arg (ih true)
      | drop => rw [filterLdflags_cons_drop rest h]; exact List.Sublist.cons arg (ih false)

/-- Any occurrence of an argument whose classification is not `drop` survives
the loop: at a value position it is kept by the lookahead rule, anywhere else
by its own branch. -/
theorem mem_filterLdflags_of_ne_drop {arg : String} (hcl : classify arg ≠ .drop) :
    ∀ (b : Bool) (xs : List String), arg ∈ xs → arg ∈ filterLdflags b xs := by
  intro b xs
  induction xs generalizing b with
  | nil => intro h; cases h
  | cons x rest ih =>
    intro hmem
    rcases List.mem_cons.mp hmem with rfl | hrest
    · cases b with
      | true => rw [filterLdflags_cons_true]; exact List.mem_cons_self _ _
      | false =>
        cases h : classify arg with
        | keep => rw [filterLdflags_cons_keep rest h]; exact List.mem_cons_self _ _
        | flagWithValue => rw [filterLdflags_cons_flag rest h]; exact List.mem_cons_self _ _
        | drop => exact absurd h hcl
    · cases b with
      | true => rw [filterLdflags_cons_true]; exact List.mem_cons_of_mem _ (ih false hrest)
      | false =>
        cases h : classify x with
        | keep =>
          rw [filterLdflags_cons_keep rest h]
          exact List.mem_cons_of_mem _ (ih false hrest)
        | flagWithValue =>
          rw [filterLdflags_cons_flag rest h]
          exact List.mem_cons_of_mem _ (ih true hrest)
        | drop =>
          rw [filterLdflags_cons_drop rest h]
          exact ih false hrest

/-- The loop is a Mealy machine: filtering a concatenation filters the first
part, then filters the second part starting from the lookahead bit the first
part left behind. -/
theorem filterLdflags_append (ys : List String) :
    ∀ (b : Bool) (xs : List String),
      filterLdflags b (xs ++ ys) =
        filterLdflags b xs ++ filterLdflags (flagStateAfter b xs) ys := by
  intro b xs
  induction xs generalizing b with
  | nil => rw [List.nil_append, filterLdflags_nil, List.nil_append, flagStateAfter_nil]
  | cons x rest ih =>
    cases b with
    | true =>
      rw [List.cons_append, filterLdflags_cons_true, filterLdflags_cons_true, ih false,
        List.cons_append]
      rfl
    | false =>
      cases h : classify x with
      | keep =>
        rw [List.cons_append, filterLdflags_cons_keep (rest ++ ys) h,
          filterLdflags_cons_keep rest h, ih false, List.cons_append]
        simp [flagStateAfter, h]
      | flagWithValue =>
        rw [List.cons_append, filterLdflags_cons_flag (rest ++ ys) h,
          filterLdflags_cons_flag rest h, ih true, List.cons_append]
        simp [flagStateAfter, h]
      | drop =>
        rw [List.cons_append, filterLdflags_cons_drop (rest ++ ys) h,
          filterLdflags_cons_drop rest h, ih false]
        simp [flagStateAfter, h]

/-! ### Classification lemmas -/

/-- `pyEndsWith` as a character-list suffix proposition. -/
theorem pyEndsWith_iff {s suffix : String} :
    pyEndsWith s suffix = true ↔ suffix.data <:+ s.data := by
  simp [pyEndsWith]

/-- `pyStartsWith` as a character-list prefix proposition. -/
theorem pyStartsWith_iff {s pre : String} :
    pyStartsWith s pre = true ↔ pre.data <+: s.data := by
  simp [pyStartsWith]

/-- The final `else` branch is reached exactly when every branch condition of
the chain is false. -/
theorem classify_eq_drop_iff {arg : String} :
    classify arg = .drop ↔
      pyEndsWith arg ".rlib" = false ∧
      pyEndsWith arg ".crate.allocator.rcgu.o" = false ∧
      (pyEndsWith arg ".lib" && !pyStartsWith arg "msvcrt") = false ∧
      (arg == "-l" || arg == "-L") = false ∧
      (arg == "-Wl,--start-group" || arg == "-Wl,--end-group") = false ∧
      pyStartsWith (pyUpper arg) "/LIBPATH:" = false := by
  unfold classify
  split_ifs with h1 h2 h3 h4 h5 h6
  · simp_all
  · simp_all
  · simp_all
  · rcases (by simpa using h4 : arg = "-l" ∨ arg = "-L") with rfl | rfl <;> decide
  · rcases (by simpa using h5 : arg = "-Wl,--start-group" ∨ arg = "-Wl,--end-group") with
      rfl | rfl <;> decide
  · simp_all
  · simp_all

/-- An argument with the allocator-object suffix is never classified `drop`
(its branch, or an earlier one, fires and all of those are `pass`/include). -/
theorem classify_ne_drop_of_allocator {arg : String}
    (h : pyEndsWith arg ".crate.allocator.rcgu.o" = true) :
    classify arg ≠ .drop := by
  intro hd
  have h2 := (classify_eq_drop_iff.mp hd).2.1
  rw [h] at h2
  cases h2

/-- An argument with the `.rlib` suffix is never classified `drop`. -/
theorem classify_ne_drop_of_rlib {arg : String}
    (h : pyEndsWith arg ".rlib" = true) :
    classify arg ≠ .drop := by
  intro hd
  have h1 := (classify_eq_drop_iff.mp hd).1
  rw [h] at h1
  cases h1

/-- A `.lib` argument that does not start with `msvcrt` is never classified
`drop`. -/
theorem classify_ne_drop_of_lib {arg : String}
    (hl : pyEndsWith arg ".lib" = true) (hm : pyStartsWith arg "msvcrt" = false) :
    classify arg ≠ .drop := by
  intro hd
  have h3 := (classify_eq_drop_iff.mp hd).2.2.1
  rw [hl, hm] at h3
  cases h3

/-- `-l` sets the lookahead bit. -/
theorem classify_dash_l : classify "-l" = .flagWithValue := by decide

/-- `-L` sets the lookahead bit. -/
theorem classify_dash_L : classify "-L" = .flagWithValue := by decide

/-- A `.lib` argument that starts with `msvcrt` matches no branch of the
chain: the `.lib` branch rejects it because of the `msvcrt` prefix, and its
suffix and prefix are incompatible with every other branch condition. -/
theorem classify_msvcrt_lib {arg : String}
    (hl : pyEndsWith arg ".lib" = true) (hm : pyStartsWith arg "msvcrt" = true) :
    classify arg = .drop := by
  have hsuf : (".lib" : String).data <:+ arg.data := pyEndsWith_iff.mp hl
  have hpre : ("msvcrt" : String).data <+: arg.data := pyStartsWith_iff.mp hm
  have h1 : pyEndsWith arg ".rlib" = false := by
    rw [Bool.eq_false_iff]
    intro h
    have h2 : (".rlib" : String).data <:+ arg.data := pyEndsWith_iff.mp h
    rcases List.suffix_or_suffix_of_suffix hsuf h2 with h3 | h3
    · exact absurd h3 (by decide)
    · exact absurd h3 (by decide)
  have h2 : pyEndsWith arg ".crate.allocator.rcgu.o" = false := by
    rw [Bool.eq_false_iff]
    intro h
    have h2' : (".crate.allocator.rcgu.o" : String).data <:+ arg.data := pyEndsWith_iff.mp h
    rcases List.suffix_or_suffix_of_suffix hsuf h2' with h3 | h3
    · exact absurd h3 (by decide)
    · exact absurd h3 (by decide)
  have h4 : (arg == "-l" || arg == "-L") = false := by
    rw [Bool.or_eq_false_iff, beq_eq_false_iff_ne, beq_eq_false_iff_ne]
    constructor
    · rintro rfl; revert hsuf; decide
    · rintro rfl; revert hsuf; decide
  have h5 : (arg == "-Wl,--start-group" || arg == "-Wl,--end-group") = false := by
    rw [Bool.or_eq_false_iff, beq_eq_false_iff_ne, beq_eq_false_iff_ne]
    constructor
    · rintro rfl; revert hsuf; decide
    · rintro rfl; revert hsuf; decide
  have h6 : pyStartsWith (pyUpper arg) "/LIBPATH:" = false := by
    rw [Bool.eq_false_iff]
    intro h
    have hlp : ("/LIBPATH:" : String).data <+: (pyUpper arg).data := pyStartsWith_iff.mp h
    have hmap : ("msvcrt" : String).data.map Char.toUpper = ("MSVCRT" : String).data := by
      decide
    have hup : ("MSVCRT" : String).data <+: (pyUpper arg).data := by
      rw [← hmap]
      exact List.IsPrefix.map Char.toUpper hpre
    rcases List.prefix_or_prefix_of_prefix hlp hup with h3 | h3
    · exact absurd h3 (by decide)
    · exact absurd h3 (by decide)
  exact classify_eq_drop_iff.mpr ⟨h1, h2, by rw [hl, hm]; rfl, h4, h5, h6⟩

/-- A single `-l`/`-L` is kept whatever the incoming lookahead bit is. -/
theorem filterLdflags_singleton_flag {a : String}
    (ha : classify a = .flagWithValue) (b : Bool) :
    filterLdflags b [a] = [a] := by
  cases b with
  | true => rfl
  | false => rw [filterLdflags_cons_flag [] ha]; rfl

/-- Refiltering an already-filtered list changes nothing (strong induction on
the length, consuming two elements at a time across a `-l`/`-L` pair). -/
theorem filterLdflags_idem_aux :
    ∀ (n : Nat) (xs : List String), xs.length ≤ n →
      filterLdflags false (filterLdflags false xs) = filterLdflags false xs := by
  intro n
  induction n with
  | zero =>
    intro xs h
    have hx : xs = [] := List.eq_nil_of_length_eq_zero (Nat.le_zero.mp h)
    subst hx
    rfl
  | succ n ih =>
    intro xs h
    match xs with
    | [] => rfl
    | arg :: rest =>
      have hr : rest.length ≤ n := by
        have : rest.length + 1 ≤ n + 1 := by simpa using h
        omega
      cases hc : classify arg with
      | keep =>
        rw [filterLdflags_cons_keep rest hc, filterLdflags_cons_keep _ hc, ih rest hr]
      | drop =>
        rw [filterLdflags_cons_drop rest hc, ih rest hr]
      | flagWithValue =>
        match rest with
        | [] =>
          have h1 : filterLdflags false [arg] = [arg] :=
            filterLdflags_singleton_flag hc false
          rw [h1]
          exact h1
        | v :: rest' =>
          have hr' : rest'.length ≤ n := by
            have : rest'.length + 2 ≤ n + 1 := by simpa using h
            omega
          have e1 : filterLdflags false (arg :: v :: rest') =
              arg :: v :: filterLdflags false rest' := by
            rw [filterLdflags_cons_flag _ hc, filterLdflags_cons_true]
          rw [e1, filterLdflags_cons_flag _ hc, filterLdflags_cons_true, ih rest' hr']

/-! ### Claims -/

/-- C1, counterexample: an argument ending with ".crate.allocator.rcgu.o", not
preceded by any `-l`/`-L`, appears verbatim in the filtered output — the
`pass` branch of the chain falls through to `ldflags += [arg]`, so the claim
that such arguments are dropped is false on the code. -/
theorem c1_allocator_dropped_cex :
    filterLdflags false ["foo.crate.allocator.rcgu.o"] =
      ["foo.crate.allocator.rcgu.o"] ∧
    "foo.crate.allocator.rcgu.o" ∈
      filterLdflags false ["foo.crate.allocator.rcgu.o"] := by
  decide

/-- C1, amended: every argument ending with the allocator-object suffix
".crate.allocator.rcgu.o" is retained by the flag filter — it always appears
in the filtered output, whether it sits at a flag-value position or is matched
by its own branch. -/
theorem c1_allocator_retained (xs : List String) (arg : String)
    (hmem : arg ∈ xs)
    (hsuf : pyEndsWith arg ".crate.allocator.rcgu.o" = true) :
    arg ∈ filterLdflags false xs :=
  mem_filterLdflags_of_ne_drop (classify_ne_drop_of_allocator hsuf) false xs hmem

/-- C1 witness: the amended retention theorem at a concrete input. -/
theorem c1_allocator_retained_wit :
    "bar.crate.allocator.rcgu.o" ∈
      filterLdflags false ["junk", "bar.crate.allocator.rcgu.o"] :=
  c1_allocator_retained ["junk", "bar.crate.allocator.rcgu.o"]
    "bar.crate.allocator.rcgu.o" (by decide) (by decide)

/-- C2, counterexample: a `.rlib` argument appears verbatim in the filtered
output — the `.rlib` branch is a `pass` (include) branch, so the claim that
`.rlib` arguments are always dropped is false on the code. -/
theorem c2_rlib_dropped_cex :
    filterLdflags false ["libstd-8524caae8408aac2.rlib"] =
      ["libstd-8524caae8408aac2.rlib"] ∧
    "libstd-8524caae8408aac2.rlib" ∈
      filterLdflags false ["libstd-8524caae8408aac2.rlib"] := by
  decide

/-- C2, amended: every argument ending with ".rlib" is retained by the flag
filter, regardless of its position — it always appears in the filtered
output. -/
theorem c2_rlib_retained (xs : List String) (arg : String)
    (hmem : arg ∈ xs) (hsuf : pyEndsWith arg ".rlib" = true) :
    arg ∈ filterLdflags false xs :=
  mem_filterLdflags_of_ne_drop (classify_ne_drop_of_rlib hsuf) false xs hmem

/-- C2 witness: the amended retention theorem at a concrete input. -/
theorem c2_rlib_retained_wit :
    "libstd-8524caae8408aac2.rlib" ∈
      filterLdflags false ["junk", "libstd-8524caae8408aac2.rlib"] :=
  c2_rlib_retained ["junk", "libstd-8524caae8408aac2.rlib"]
    "libstd-8524caae8408aac2.rlib" (by decide) (by decide)

/-- C3, counterexample: an argument ending with ".lib" and starting with
"msvcrt" is NOT always dropped: as the value of a preceding `-l` it is kept
by the lookahead rule, so the unconditional drop half of the claim is false. -/
theorem c3_lib_rules_cex :
    filterLdflags false ["-l", "msvcrt.lib"] = ["-l", "msvcrt.lib"] ∧
    "msvcrt.lib" ∈ filterLdflags false ["-l", "msvcrt.lib"] := by
  decide

/-- C3, amended: every argument ending with ".lib" that does not start with
"msvcrt" is retained; every argument ending with ".lib" that starts with
"msvcrt" and is processed with the lookahead bit clear (i.e. is not consumed
as the value of a preceding `-l`/`-L`) is dropped at that position; and
`["ws2_32.lib", "msvcrt.lib"]` filters to exactly `["ws2_32.lib"]`. -/
theorem c3_lib_rules :
    (∀ (xs : List String) (arg : String), arg ∈ xs →
        pyEndsWith arg ".lib" = true → pyStartsWith arg "msvcrt" = false →
        arg ∈ filterLdflags false xs) ∧
    (∀ (front rest : List String) (arg : String),
        flagStateAfter false front = false →
        pyEndsWith arg ".lib" = true → pyStartsWith arg "msvcrt" = true →
        filterLdflags false (front ++ arg :: rest) =
          filterLdflags false front ++ filterLdflags false rest) ∧
    filterLdflags false ["ws2_32.lib", "msvcrt.lib"] = ["ws2_32.lib"] := by
  refine ⟨?_, ?_, by decide⟩
  · intro xs arg hmem hl hm
    exact mem_filterLdflags_of_ne_drop (classify_ne_drop_of_lib hl hm) false xs hmem
  · intro front rest arg hstate hl hm
    rw [filterLdflags_append, hstate, filterLdflags_cons_drop rest (classify_msvcrt_lib hl hm)]

/-- C3 witness: both halves of the amended theorem at concrete inputs. -/
theorem c3_lib_rules_wit :
    "ws2_32.lib" ∈ filterLdflags false ["ws2_32.lib", "msvcrt.lib"] ∧
    filterLdflags false (["-Wl,--start-group"] ++ "msvcrt.lib" :: []) =
      filterLdflags false ["-Wl,--start-group"] ++ filterLdflags false [] :=
  ⟨c3_lib_rules.1 ["ws2_32.lib", "msvcrt.lib"] "ws2_32.lib"
      (by decide) (by decide) (by decide),
    c3_lib_rules.2.1 ["-Wl,--start-group"] [] "msvcrt.lib"
      (by decide) (by decide) (by decide)⟩

/-- C4, counterexample: a `-l` that is itself consumed as the value of a
preceding `-l` does not trigger the lookahead rule, so the argument following
it ("x") is dropped and never appears in the output — the claim's guarantee
does not hold for every occurrence of `-l`. -/
theorem c4_flag_value_pair_cex :
    filterLdflags false ["-l", "-l", "x"] = ["-l", "-l"] ∧
    "x" ∉ filterLdflags false ["-l", "-l", "x"] := by
  decide

/-- C4, amended: every occurrence of `-l` (or `-L`) that is processed with the
lookahead bit clear (i.e. is not itself consumed as the value of a preceding
`-l`/`-L`) is retained and, when a following argument exists, is immediately
followed in the output by that argument verbatim, even when that argument
matches no inclusion rule on its own. -/
theorem c4_flag_value_pair (front rest : List String) (a v : String)
    (ha : a = "-l" ∨ a = "-L") (hstate : flagStateAfter false front = false) :
    filterLdflags false (front ++ a :: v :: rest) =
      filterLdflags false front ++ a :: v :: filterLdflags false rest := by
  have hc : classify a = .flagWithValue := by
    rcases ha with rfl | rfl
    · exact classify_dash_l
    · exact classify_dash_L
  rw [filterLdflags_append, hstate, filterLdflags_cons_flag _ hc, filterLdflags_cons_true]

/-- C4 witness: the amended theorem at a concrete input whose value argument
("some/path") matches no inclusion rule on its own. -/
theorem c4_flag_value_pair_wit :
    filterLdflags false ([] ++ "-l" :: "some/path" :: []) =
      filterLdflags false [] ++ "-l" :: "some/path" :: filterLdflags false [] :=
  c4_flag_value_pair [] [] "-l" "some/path" (Or.inl rfl) (by decide)

/-- C5: the filtered output is a subsequence of the input — every element of
the output is an input element, occurs at most as often as in the input, and
the relative order of the input is preserved. -/
theorem c5_output_sublist (xs : List String) :
    (filterLdflags false xs).Sublist xs ∧
      ∀ a : String, (filterLdflags false xs).count a ≤ xs.count a :=
  ⟨filterLdflags_sublist false xs,
    fun a => (filterLdflags_sublist false xs).count_le a⟩

/-- C6: on every exit path of the Orchestrator — subprocess success,
subprocess nonzero exit, or a read failure — the `finally` cleanup closes and
unlinks the temporary argsfile, and an exception from the `try` block still
propagates as the overall result afterwards. -/
theorem c6_temp_cleanup_all_paths (o : OrchOutcome) :
    ((orchestrate o).2.tempFileExists = false ∧ (orchestrate o).2.fdOpen = false) ∧
      ∀ e : OrchError, orchTryBlock o = .error e → (orchestrate o).1 = .error e := by
  constructor
  · cases o <;> exact ⟨rfl, rfl⟩
  · intro e he
    cases o with
    | success content => cases he
    | subprocessNonzeroExit =>
      cases he
      rfl
    | readError =>
      cases he
      rfl

/-- C6 witness: on an induced subprocess failure the temp file is gone and the
error propagates. -/
theorem c6_temp_cleanup_all_paths_wit :
    ((orchestrate .subprocessNonzeroExit).2.tempFileExists = false ∧
      (orchestrate .subprocessNonzeroExit).2.fdOpen = false) ∧
    (orchestrate .subprocessNonzeroExit).1 = .error .calledProcessError :=
  ⟨(c6_temp_cleanup_all_paths .subprocessNonzeroExit).1,
    (c6_temp_cleanup_all_paths .subprocessNonzeroExit).2 .calledProcessError rfl⟩

/-- C7: an empty captured argsfile splits into the single-element list
containing the empty string, the empty string matches no inclusion rule (it is
classified `drop`), and the resulting stdout text is empty. -/
theorem c7_empty_argsfile :
    parseArgsfile "" = [""] ∧ classify "" = Action.drop ∧
      ldflagsOutput (parseArgsfile "") = "" := by
  decide

/-- C8: the flag filter is idempotent — filtering an already-filtered list
yields it unchanged. -/
theorem c8_filter_idempotent (xs : List String) :
    filterLdflags false (filterLdflags false xs) = filterLdflags false xs :=
  filterLdflags_idem_aux xs.length xs (Nat.le_refl _)

/-- C9: the filter is total (it is a structurally recursive function) and a
trailing `-l`/`-L` with no following value is simply retained: the output for
`ys ++ [flag]` is the output for `ys` with the flag appended, the lookahead
bit set by the final flag being discarded at end of input. -/
theorem c9_trailing_flag (ys : List String) (a : String)
    (ha : a = "-l" ∨ a = "-L") :
    filterLdflags false (ys ++ [a]) = filterLdflags false ys ++ [a] := by
  have hc : classify a = .flagWithValue := by
    rcases ha with rfl | rfl
    · exact classify_dash_l
    · exact classify_dash_L
  rw [filterLdflags_append, filterLdflags_singleton_flag hc]

/-- C9 witness: a trailing `-l` after an otherwise dropped argument. -/
theorem c9_trailing_flag_wit :
    filterLdflags false (["junk"] ++ ["-l"]) = filterLdflags false ["junk"] ++ ["-l"] :=
  c9_trailing_flag ["junk"] "-l" (Or.inl rfl)

/-- C10: suffix/prefix matching is case-sensitive for the ".rlib", ".lib" and
"msvcrt" rules (uppercase variants are not matched) and case-insensitive for
the "/LIBPATH:" rule (the code uppercases the argument before comparing):
"WS2_32.LIB" is dropped while "ws2_32.lib" is kept, "foo.RLIB" is dropped
while "foo.rlib" is kept, "MSVCRT.lib" is kept (the "msvcrt" prefix test
fails) while "msvcrt.lib" is dropped, and "/libpath:x" is kept just like
"/LIBPATH:x". -/
theorem c10_case_sensitivity :
    filterLdflags false ["WS2_32.LIB"] = [] ∧
    filterLdflags false ["ws2_32.lib"] = ["ws2_32.lib"] ∧
    filterLdflags false ["foo.RLIB"] = [] ∧
    filterLdflags false ["foo.rlib"] = ["foo.rlib"] ∧
    filterLdflags false ["MSVCRT.lib"] = ["MSVCRT.lib"] ∧
    filterLdflags false ["msvcrt.lib"] = [] ∧
    filterLdflags false ["/libpath:x"] = ["/libpath:x"] ∧
    filterLdflags false ["/LIBPATH:x"] = ["/LIBPATH:x"] := by
  decide

end GetRustLdflags
